import Mathlib

/-!
Verification of the sqldb shell front end: the input-buffer contract
(src/input.rs and src/sql/tokenizer.rs), the command classifier and
dispatcher (src/sql/parser.rs), and the read loop (src/lib.rs), shallowly
embedded as pure Lean functions.  A read from standard input is modelled by
an explicit parameter of type Except IOErr String: on success the string is
exactly what read_line appended to its buffer (the line including its
terminator, empty at end of stream).  Printing and process exit are
modelled as explicit effect lists and outcome values.
-/

namespace Sqldb

/-- A standard-input read failure, carrying the message the io::Error would display. -/
structure IOErr where
  msg : String
deriving DecidableEq

/-- Whitespace as Rust char::is_whitespace decides it on the ASCII range
(the full Rust predicate is Unicode White_Space; the two agree on every
character these programs compare). -/
def rustIsWhitespace (c : Char) : Bool :=
  c = ' ' || c = '\t' || c = '\n' || c = '\r' || c = '\x0b' || c = '\x0c'

/-- Rust str::trim — remove leading and trailing whitespace. -/
def rustTrim (s : String) : String :=
  ⟨((s.data.dropWhile rustIsWhitespace).reverse.dropWhile rustIsWhitespace).reverse⟩

/-- Rust str::starts_with with a string pattern. -/
def rustStartsWith (s pat : String) : Bool :=
  pat.data.isPrefixOf s.data

/-- Rust str::starts_with with a char pattern. -/
def rustStartsWithChar (s : String) (c : Char) : Bool :=
  match s.data with
  | [] => false
  | a :: _ => a = c

namespace Tokenizer

/-- src/sql/tokenizer.rs: struct InputBuffer. -/
structure InputBuffer where
  buffer : Option String
  buffer_length : Nat
deriving DecidableEq

/-- InputBuffer::new / Default: buffer None, length 0. -/
def InputBuffer.new : InputBuffer :=
  { buffer := none, buffer_length := 0 }

/-- src/sql/tokenizer.rs InputBuffer::read_input.  read_line appends the
read bytes to a fresh String and its io::Result is propagated by the
question-mark operator; on success the buffer is set to
Some(buffer.trim().to_string()) and buffer_length to its byte length.
At end of stream read_line succeeds having appended nothing. -/
def InputBuffer.read_input (self : InputBuffer) (r : Except IOErr String) :
    Except IOErr InputBuffer :=
  match r with
  | .error e => .error e
  | .ok line =>
      let b := rustTrim line
      .ok { self with buffer := some b, buffer_length := b.utf8ByteSize }

end Tokenizer

/-- Outcome of an operation that may terminate the whole process:
either the process exits with a status code after writing a diagnostic
line to standard error, or the operation returns a value. -/
inductive ProcResult (α : Type)
  | exit (code : Nat) (diag : String)
  | ok (a : α)
deriving DecidableEq

namespace Input

/-- src/input.rs: struct InputBuffer. -/
structure InputBuffer where
  buffer : Option String
  buffer_length : Nat
  input_lenght : Nat
deriving DecidableEq

/-- InputBuffer::new: buffer None, both lengths 0. -/
def InputBuffer.new : InputBuffer :=
  { buffer := none, buffer_length := 0, input_lenght := 0 }

/-- src/input.rs InputBuffer::read_input.  read_line_from_stream clears the
buffer and reads one line, returning the byte count; an Err or a zero-byte
read terminates the process with status 1 and a stderr diagnostic.
Otherwise buffer[..bytes_read - 1] drops the final byte of the line read:
bytes_read is the byte length of the whole line, and since the final
character is the single-byte newline appended by read_line, dropping the
final byte is dropping the final character. -/
def InputBuffer.read_input (self : InputBuffer) (r : Except IOErr String) :
    ProcResult InputBuffer :=
  match r with
  | .error e => .exit 1 ("Error reading input: " ++ e.msg)
  | .ok line =>
      let bytes_read := line.utf8ByteSize
      if bytes_read = 0 then
        .exit 1 "Error reading input"
      else
        .ok { self with
              input_lenght := bytes_read - 1,
              buffer := some ⟨line.data.dropLast⟩ }

end Input

namespace Parser

/-- src/sql/parser.rs: enum MetaCommand. -/
inductive MetaCommand
  | Exit
  | Help
deriving DecidableEq

/-- src/sql/parser.rs: enum Query. -/
inductive Query
  | Insert
  | Select
deriving DecidableEq

/-- src/sql/parser.rs: enum CommandType. -/
inductive CommandType
  | MetaCommand (m : Parser.MetaCommand)
  | Query (q : Parser.Query)
deriving DecidableEq

/-- src/sql/parser.rs: enum CommandError. -/
inductive CommandError
  | EmptyBuffer
  | InvalidBuffer
  | UnrecognizedMetaCommand (s : String)
  | UnrecognizedQuery (s : String)
deriving DecidableEq

/-- src/sql/parser.rs: struct Command, the reused command slot. -/
structure Command where
  variant : Option CommandType
deriving DecidableEq

/-- Command::new / Default: variant None. -/
def Command.new : Command :=
  { variant := none }

/-- src/sql/parser.rs parse_meta_command: exact string match against the
recognized meta-command literals. -/
def parse_meta_command (buffer_content : String) : Option MetaCommand :=
  if buffer_content = ".exit" then some .Exit
  else if buffer_content = ".help" then some .Help
  else none

/-- src/sql/parser.rs parse_command.  The Rust function takes command by
mutable reference and returns CommandResult of unit; here it returns the
result paired with the command slot after the call. -/
def parse_command (input_buffer : Tokenizer.InputBuffer) (command : Command) :
    Except CommandError Unit × Command :=
  match input_buffer.buffer with
  | none => (.error .EmptyBuffer, command)
  | some buffer_content =>
      if buffer_content.data.isEmpty then
        (.error .InvalidBuffer, command)
      else if rustStartsWithChar buffer_content '.' then
        match parse_meta_command buffer_content with
        | some meta_command =>
            (.ok (), { command with variant := some (.MetaCommand meta_command) })
        | none =>
            (.error (.UnrecognizedMetaCommand buffer_content), command)
      else if rustStartsWith buffer_content "select" then
        (.ok (), { command with variant := some (.Query .Select) })
      else if rustStartsWith buffer_content "insert" then
        (.ok (), { command with variant := some (.Query .Insert) })
      else
        (.error (.UnrecognizedQuery buffer_content), command)

/-- One observable side effect of the shell: a line on standard output, a
line on standard error, the prompt (program name and a separator, flushed,
no newline), or the startup banner printed by print_db_details. -/
inductive Effect
  | out (s : String)
  | err (s : String)
  | prompt
  | banner
deriving DecidableEq

/-- What dispatching a command does after its prints: process::exit with a
status code, or a normal return carrying the CommandResult. -/
inductive ExecOutcome
  | exited (code : Nat)
  | ret (r : Except CommandError Unit)

/-- src/sql/parser.rs execute_command: dispatch on the command slot.
Exit calls process::exit(0); Help and the two query placeholders print one
line to standard output and return Ok; a None slot returns the generic
UnrecognizedQuery error. -/
def execute_command (command : Command) : List Effect × ExecOutcome :=
  match command.variant with
  | some (.MetaCommand m) =>
      match m with
      | .Exit => ([], .exited 0)
      | .Help => ([.out ".help command executed."], .ret (.ok ()))
  | some (.Query q) =>
      match q with
      | .Insert => ([.out "This is where we would do an insert."], .ret (.ok ()))
      | .Select => ([.out "This is where we would do a select."], .ret (.ok ()))
  | none => ([], .ret (.error (.UnrecognizedQuery "Unrecognized command")))

/-- The Display implementation for CommandError (used by run_command only
for execution errors, via the format argument). -/
def CommandError.display : CommandError → String
  | .EmptyBuffer => "Input buffer is empty."
  | .InvalidBuffer => "Invalid input buffer."
  | .UnrecognizedMetaCommand cmd => "Unrecognized meta command: \x27" ++ cmd ++ "\x27."
  | .UnrecognizedQuery query => "Unrecognized query: \x27" ++ query ++ "\x27."

/-- The stderr line run_command prints for each classification error
(src/sql/parser.rs lines 119-132). -/
def classificationDiag : CommandError → String
  | .EmptyBuffer => "Input buffer is empty."
  | .InvalidBuffer => "Invalid input buffer."
  | .UnrecognizedMetaCommand cmd => "Unrecognized command: \x27" ++ cmd ++ "\x27."
  | .UnrecognizedQuery query => "Unrecognized query: \x27" ++ query ++ "\x27."

/-- src/sql/parser.rs run_command: classify, then on success dispatch, on
failure print one diagnostic.  Returns the command slot after the call,
the emitted effects, and Some code when the dispatch exited the process. -/
def run_command (input_buffer : Tokenizer.InputBuffer) (command : Command) :
    Command × List Effect × Option Nat :=
  match parse_command input_buffer command with
  | (.ok _, command1) =>
      match execute_command command1 with
      | (effs, .exited c) => (command1, effs, some c)
      | (effs, .ret (.ok _)) => (command1, effs, none)
      | (effs, .ret (.error e)) =>
          (command1, effs ++ [.err ("Error executing command: " ++ e.display)], none)
  | (.error e, command1) =>
      (command1, [.err (classificationDiag e)], none)

end Parser

/-- Outcome of the read loop in src/lib.rs run(): the process exited from
inside execute_command (process::exit), or run returned (Ok after the
.exit break gives process status 0, a propagated read_input Err gives
status 1 once main reports the io::Result), or the supplied input trace
ran out while the loop would keep reading. -/
inductive RunOutcome
  | exited (code : Nat) (effects : List Parser.Effect)
  | finished (code : Nat) (effects : List Parser.Effect)
  | blocked (effects : List Parser.Effect)
deriving DecidableEq

/-- Prepend already-emitted effects to an outcome. -/
def RunOutcome.prepend (es : List Parser.Effect) : RunOutcome → RunOutcome
  | .exited c e => .exited c (es ++ e)
  | .finished c e => .finished c (es ++ e)
  | .blocked e => .blocked (es ++ e)

/-- Effects carried by an outcome. -/
def RunOutcome.effects : RunOutcome → List Parser.Effect
  | .exited _ e => e
  | .finished _ e => e
  | .blocked e => e

/-- The loop body of src/lib.rs run(): print the prompt, read a line into
the tokenizer InputBuffer, break on a buffer equal to ".exit" (run then
returns Ok and the process finishes with status 0), otherwise hand the
buffer and the command slot to run_command and continue.  A read error
propagates out of run via the question mark; main reporting that Err exits
the process with status 1. -/
def runLoop (command : Parser.Command) (input_buffer : Tokenizer.InputBuffer)
    (inputs : List (Except IOErr String)) : RunOutcome :=
  match inputs with
  | [] => .blocked []
  | r :: rest =>
      match input_buffer.read_input r with
      | .error _ => .finished 1 [.prompt]
      | .ok ib1 =>
          if ib1.buffer = some ".exit" then
            .finished 0 [.prompt]
          else
            match Parser.run_command ib1 command with
            | (_, effs, some c) => .exited c ([.prompt] ++ effs)
            | (command1, effs, none) =>
                (runLoop command1 ib1 rest).prepend ([.prompt] ++ effs)

/-- src/lib.rs run(): fresh InputBuffer and Command, the banner, then the
loop. -/
def run (inputs : List (Except IOErr String)) : RunOutcome :=
  (runLoop Parser.Command.new Tokenizer.InputBuffer.new inputs).prepend [.banner]

/-! Helper lemmas shared by the claim theorems. -/

lemma utf8ByteSize_pos (s : String) (h : s.data ≠ []) : 0 < s.utf8ByteSize := by
  obtain ⟨l⟩ := s
  cases l with
  | nil => exact absurd rfl h
  | cons c cs =>
      have he : String.utf8ByteSize ⟨c :: cs⟩ =
          String.utf8ByteSize.go cs + c.utf8Size := rfl
      have hc := Char.utf8Size_pos c
      omega

lemma isEmpty_false_of_ne_nil (l : List Char) (h : l ≠ []) : l.isEmpty = false := by
  cases l with
  | nil => exact absurd rfl h
  | cons c cs => rfl

lemma data_ne_nil_of_startsWithChar (s : String) (c : Char)
    (h : rustStartsWithChar s c = true) : s.data ≠ [] := by
  intro he
  unfold rustStartsWithChar at h
  rw [he] at h
  exact Bool.false_ne_true h

lemma isPrefixOf_head (a : Char) (as l : List Char)
    (h : List.isPrefixOf (a :: as) l = true) : ∃ t, l = a :: t := by
  cases l with
  | nil => simp [List.isPrefixOf] at h
  | cons b bs =>
      simp only [List.isPrefixOf, Bool.and_eq_true, beq_iff_eq] at h
      exact ⟨bs, by rw [h.1]⟩

lemma rustStartsWith_select_head (s : String)
    (h : rustStartsWith s "select" = true) : ∃ t, s.data = 's' :: t := by
  unfold rustStartsWith at h
  have hp : ("select" : String).data = 's' :: "elect".data := rfl
  rw [hp] at h
  exact isPrefixOf_head _ _ _ h

lemma rustStartsWith_insert_head (s : String)
    (h : rustStartsWith s "insert" = true) : ∃ t, s.data = 'i' :: t := by
  unfold rustStartsWith at h
  have hp : ("insert" : String).data = 'i' :: "nsert".data := rfl
  rw [hp] at h
  exact isPrefixOf_head _ _ _ h

lemma insert_not_select (s : String) (h : rustStartsWith s "insert" = true) :
    rustStartsWith s "select" = false := by
  obtain ⟨t, ht⟩ := rustStartsWith_insert_head s h
  unfold rustStartsWith
  rw [ht]
  have hp : ("select" : String).data = 's' :: "elect".data := rfl
  rw [hp]
  simp [List.isPrefixOf]

lemma string_append_head (p m : String) (c : Char) (hp : p.data.head? = some c) :
    (p ++ m).data.head? = some c := by
  rw [String.data_append]
  cases hpd : p.data with
  | nil => rw [hpd] at hp; exact absurd hp (by simp)
  | cons a as => rw [hpd] at hp; simpa using hp

lemma string_append_ne (p m t : String) (c : Char) (hp : p.data.head? = some c)
    (ht : t.data.head? ≠ some c) : p ++ m ≠ t := by
  intro he
  exact ht (he ▸ string_append_head p m c hp)

lemma string_append2_ne (p m q t : String) (c : Char) (hp : p.data.head? = some c)
    (ht : t.data.head? ≠ some c) : p ++ m ++ q ≠ t :=
  string_append_ne (p ++ m) q t c (string_append_head p m c hp) ht

lemma parse_command_cases (ib : Tokenizer.InputBuffer) (cmd : Parser.Command) :
    (∃ e, Parser.parse_command ib cmd = (.error e, cmd)) ∨
    (∃ v, Parser.parse_command ib cmd = (.ok (), { cmd with variant := some v })) := by
  unfold Parser.parse_command
  cases ib.buffer with
  | none => exact Or.inl ⟨_, rfl⟩
  | some s =>
      dsimp only
      split
      · exact Or.inl ⟨_, rfl⟩
      · split
        · split
          · exact Or.inr ⟨_, rfl⟩
          · exact Or.inl ⟨_, rfl⟩
        · split
          · exact Or.inr ⟨_, rfl⟩
          · split
            · exact Or.inr ⟨_, rfl⟩
            · exact Or.inl ⟨_, rfl⟩

lemma parse_command_error_full (ib : Tokenizer.InputBuffer) (cmd : Parser.Command)
    (e : Parser.CommandError) (h : (Parser.parse_command ib cmd).1 = .error e) :
    Parser.parse_command ib cmd = (.error e, cmd) := by
  rcases parse_command_cases ib cmd with ⟨e2, he⟩ | ⟨v, hv⟩
  · rw [he] at h ⊢
    simp only [Except.error.injEq] at h
    rw [h]
  · rw [hv] at h
    simp at h

lemma parse_command_ok_variant (ib : Tokenizer.InputBuffer) (cmd cmd1 : Parser.Command)
    (h : Parser.parse_command ib cmd = (.ok (), cmd1)) : ∃ v, cmd1.variant = some v := by
  rcases parse_command_cases ib cmd with ⟨e2, he⟩ | ⟨v, hv⟩
  · rw [he] at h
    simp at h
  · rw [hv] at h
    injection h with h1 h2
    exact ⟨v, by rw [← h2]⟩

lemma parse_command_empty_iff (ib : Tokenizer.InputBuffer) (cmd : Parser.Command) :
    (Parser.parse_command ib cmd).1 = .error .EmptyBuffer ↔ ib.buffer = none := by
  unfold Parser.parse_command
  cases hb : ib.buffer with
  | none => simp
  | some s =>
      dsimp only
      simp only [reduceCtorEq, iff_false]
      split
      · simp
      · split
        · split
          · simp
          · simp
        · split
          · simp
          · split
            · simp
            · simp

lemma classificationDiag_ne_empty (e : Parser.CommandError)
    (he : e ≠ Parser.CommandError.EmptyBuffer) :
    Parser.classificationDiag e ≠ "Input buffer is empty." := by
  cases e with
  | EmptyBuffer => exact absurd rfl he
  | InvalidBuffer => decide
  | UnrecognizedMetaCommand l =>
      exact string_append2_ne _ l _ _ 'U' rfl (by decide)
  | UnrecognizedQuery l =>
      exact string_append2_ne _ l _ _ 'U' rfl (by decide)

lemma execute_command_no_empty_diag (cmd : Parser.Command) :
    Parser.Effect.err "Input buffer is empty." ∉ (Parser.execute_command cmd).1 := by
  rcases cmd with ⟨none | ⟨m | q⟩⟩
  · decide
  · cases m <;> decide
  · cases q <;> decide

lemma run_command_no_empty_diag (ib : Tokenizer.InputBuffer) (cmd : Parser.Command)
    (h : ib.buffer.isSome = true) :
    Parser.Effect.err "Input buffer is empty." ∉ (Parser.run_command ib cmd).2.1 := by
  unfold Parser.run_command
  split
  · rename_i u cmd1 heq
    split
    · rename_i effs c heq2
      have := execute_command_no_empty_diag cmd1
      rw [heq2] at this
      simpa using this
    · rename_i effs u2 heq2
      have := execute_command_no_empty_diag cmd1
      rw [heq2] at this
      simpa using this
    · rename_i effs e heq2
      have h1 := execute_command_no_empty_diag cmd1
      rw [heq2] at h1
      simp only [List.mem_append, not_or] at h1 ⊢
      refine ⟨by simpa using h1, ?_⟩
      simp only [List.mem_singleton]
      intro hc
      have hne : "Error executing command: " ++ e.display ≠ "Input buffer is empty." :=
        string_append_ne _ _ _ 'E' rfl (by decide)
      exact hne (Parser.Effect.err.inj hc.symm)
  · rename_i e cmd1 heq
    simp only [List.mem_singleton]
    intro hc
    have hee : e ≠ Parser.CommandError.EmptyBuffer := by
      intro hcontra
      have : (Parser.parse_command ib cmd).1 = .error .EmptyBuffer := by
        rw [heq, hcontra]
      rw [(parse_command_empty_iff ib cmd).mp this] at h
      exact Bool.false_ne_true h
    exact classificationDiag_ne_empty e hee (Parser.Effect.err.inj hc.symm)

lemma data_ne_nil_of_select (s : String) (h : rustStartsWith s "select" = true) :
    s.data ≠ [] := by
  obtain ⟨t, ht⟩ := rustStartsWith_select_head s h
  rw [ht]
  exact List.cons_ne_nil _ _

lemma data_ne_nil_of_insert (s : String) (h : rustStartsWith s "insert" = true) :
    s.data ≠ [] := by
  obtain ⟨t, ht⟩ := rustStartsWith_insert_head s h
  rw [ht]
  exact List.cons_ne_nil _ _

lemma prepend_effects (es : List Parser.Effect) (o : RunOutcome) :
    (RunOutcome.prepend es o).effects = es ++ o.effects := by
  cases o <;> rfl

lemma runLoop_no_empty_diag (inputs : List (Except IOErr String)) :
    ∀ (cmd : Parser.Command) (ib : Tokenizer.InputBuffer),
      Parser.Effect.err "Input buffer is empty." ∉ (runLoop cmd ib inputs).effects := by
  induction inputs with
  | nil => intro cmd ib; simp [runLoop, RunOutcome.effects]
  | cons r rest ih =>
      intro cmd ib
      cases r with
      | error e => simp [runLoop, Tokenizer.InputBuffer.read_input, RunOutcome.effects]
      | ok line =>
          simp only [runLoop, Tokenizer.InputBuffer.read_input]
          split
          · simp [RunOutcome.effects]
          · split
            · rename_i cmd1 effs c heq
              simp only [RunOutcome.effects, List.cons_append, List.nil_append,
                List.mem_cons, not_or]
              refine ⟨by simp, ?_⟩
              have := run_command_no_empty_diag { buffer := some (rustTrim line), buffer_length := (rustTrim line).utf8ByteSize } cmd rfl
              rw [heq] at this
              simpa using this
            · rename_i cmd1 effs heq
              rw [prepend_effects]
              simp only [List.cons_append, List.nil_append, List.mem_cons,
                List.mem_append, not_or]
              refine ⟨by simp, ?_, ih cmd1 _⟩
              have := run_command_no_empty_diag { buffer := some (rustTrim line), buffer_length := (rustTrim line).utf8ByteSize } cmd rfl
              rw [heq] at this
              simpa using this

lemma parse_command_none (ib : Tokenizer.InputBuffer) (cmd : Parser.Command)
    (h : ib.buffer = none) :
    Parser.parse_command ib cmd = (.error .EmptyBuffer, cmd) := by
  simp [Parser.parse_command, h]

lemma parse_command_nil (ib : Tokenizer.InputBuffer) (cmd : Parser.Command) (s : String)
    (hs : ib.buffer = some s) (he : s.data = []) :
    Parser.parse_command ib cmd = (.error .InvalidBuffer, cmd) := by
  simp [Parser.parse_command, hs, he]

lemma parse_command_dot (ib : Tokenizer.InputBuffer) (cmd : Parser.Command) (s : String)
    (hs : ib.buffer = some s) (hdot : rustStartsWithChar s '.' = true) :
    Parser.parse_command ib cmd =
      (match Parser.parse_meta_command s with
       | some m => (.ok (), { cmd with variant := some (.MetaCommand m) })
       | none => (.error (.UnrecognizedMetaCommand s), cmd)) := by
  have hne := data_ne_nil_of_startsWithChar s '.' hdot
  simp only [Parser.parse_command, hs, isEmpty_false_of_ne_nil _ hne,
    Bool.false_eq_true, if_false, hdot, if_true]

lemma parse_command_nodot (ib : Tokenizer.InputBuffer) (cmd : Parser.Command) (s : String)
    (hs : ib.buffer = some s) (hne : s.data ≠ []) (hdot : rustStartsWithChar s '.' = false) :
    Parser.parse_command ib cmd =
      (if rustStartsWith s "select" then
        (.ok (), { cmd with variant := some (.Query .Select) })
      else if rustStartsWith s "insert" then
        (.ok (), { cmd with variant := some (.Query .Insert) })
      else (.error (.UnrecognizedQuery s), cmd)) := by
  simp only [Parser.parse_command, hs, isEmpty_false_of_ne_nil _ hne,
    Bool.false_eq_true, if_false, hdot]

/-! The claim theorems. -/

/-- C1: parse_command decides in a fixed order, first match wins: a None
buffer gives EmptyBuffer; a held line of zero length gives InvalidBuffer;
a line whose first character is the dot resolves a meta-command; otherwise
the query keyword tests run, and if none matches the result is
UnrecognizedQuery carrying the line.  No later rule is consulted once an
earlier one matches. -/
theorem c1_parse_order (ib : Tokenizer.InputBuffer) (cmd : Parser.Command) :
    (ib.buffer = none →
      Parser.parse_command ib cmd = (.error .EmptyBuffer, cmd)) ∧
    (∀ s, ib.buffer = some s → s.data = [] →
      Parser.parse_command ib cmd = (.error .InvalidBuffer, cmd)) ∧
    (∀ s, ib.buffer = some s → s.data ≠ [] → rustStartsWithChar s '.' = true →
      Parser.parse_command ib cmd =
        (match Parser.parse_meta_command s with
         | some m => (.ok (), { cmd with variant := some (.MetaCommand m) })
         | none => (.error (.UnrecognizedMetaCommand s), cmd))) ∧
    (∀ s, ib.buffer = some s → s.data ≠ [] → rustStartsWithChar s '.' = false →
      Parser.parse_command ib cmd =
        (if rustStartsWith s "select" then
          (.ok (), { cmd with variant := some (.Query .Select) })
        else if rustStartsWith s "insert" then
          (.ok (), { cmd with variant := some (.Query .Insert) })
        else (.error (.UnrecognizedQuery s), cmd))) := by
  refine ⟨?_, ?_, ?_, ?_⟩
  · intro h
    exact parse_command_none ib cmd h
  · intro s hs he
    exact parse_command_nil ib cmd s hs he
  · intro s hs hne hdot
    exact parse_command_dot ib cmd s hs hdot
  · intro s hs hne hdot
    exact parse_command_nodot ib cmd s hs hne hdot

/-- C1 witness: the four decision rules evaluated at concrete buffers. -/
theorem c1_parse_order_witness :
    Parser.parse_command { buffer := none, buffer_length := 0 } Parser.Command.new =
      (.error .EmptyBuffer, Parser.Command.new) ∧
    Parser.parse_command { buffer := some "", buffer_length := 0 } Parser.Command.new =
      (.error .InvalidBuffer, Parser.Command.new) ∧
    Parser.parse_command { buffer := some ".help", buffer_length := 5 } Parser.Command.new =
      (.ok (), { variant := some (.MetaCommand .Help) }) ∧
    Parser.parse_command { buffer := some "drop table t", buffer_length := 12 } Parser.Command.new =
      (.error (.UnrecognizedQuery "drop table t"), Parser.Command.new) :=
  ⟨(c1_parse_order { buffer := none, buffer_length := 0 } Parser.Command.new).1 rfl,
   (c1_parse_order { buffer := some "", buffer_length := 0 } Parser.Command.new).2.1 "" rfl rfl,
   (c1_parse_order { buffer := some ".help", buffer_length := 5 } Parser.Command.new).2.2.1
     ".help" rfl (by decide) (by decide),
   (c1_parse_order { buffer := some "drop table t", buffer_length := 12 } Parser.Command.new).2.2.2
     "drop table t" rfl (by decide) (by decide)⟩

/-- C2: for a line starting with the dot, parse_command succeeds exactly on
the literals .exit and .help, storing the matching MetaCommand variant, and
fails with UnrecognizedMetaCommand carrying the line on every other
dot-line. -/
theorem c2_meta_exact (ib : Tokenizer.InputBuffer) (cmd : Parser.Command) (s : String)
    (hs : ib.buffer = some s) (hdot : rustStartsWithChar s '.' = true) :
    ((Parser.parse_command ib cmd).1 = .ok () ↔ (s = ".exit" ∨ s = ".help")) ∧
    (s = ".exit" →
      Parser.parse_command ib cmd = (.ok (), { cmd with variant := some (.MetaCommand .Exit) })) ∧
    (s = ".help" →
      Parser.parse_command ib cmd = (.ok (), { cmd with variant := some (.MetaCommand .Help) })) ∧
    (s ≠ ".exit" → s ≠ ".help" →
      Parser.parse_command ib cmd = (.error (.UnrecognizedMetaCommand s), cmd)) := by
  have hmain := parse_command_dot ib cmd s hs hdot
  have hfail : s ≠ ".exit" → s ≠ ".help" →
      Parser.parse_command ib cmd = (.error (.UnrecognizedMetaCommand s), cmd) := by
    intro h1 h2
    have hm : Parser.parse_meta_command s = none := by
      unfold Parser.parse_meta_command
      rw [if_neg h1, if_neg h2]
    rw [hmain, hm]
  refine ⟨?_, ?_, ?_, hfail⟩
  · constructor
    · intro hok
      by_contra hn
      push_neg at hn
      rw [hfail hn.1 hn.2] at hok
      simp at hok
    · rintro (h1 | h2)
      · subst h1
        rw [hmain]
        rfl
      · subst h2
        rw [hmain]
        rfl
  · intro h1
    subst h1
    rw [hmain]
    rfl
  · intro h2
    subst h2
    rw [hmain]
    rfl

/-- C2 witness: the recognized literal .help succeeds and the dot-line
.frobnicate fails with UnrecognizedMetaCommand. -/
theorem c2_meta_exact_witness :
    Parser.parse_command { buffer := some ".help", buffer_length := 5 } Parser.Command.new =
      (.ok (), { variant := some (.MetaCommand .Help) }) ∧
    Parser.parse_command { buffer := some ".frobnicate", buffer_length := 11 } Parser.Command.new =
      (.error (.UnrecognizedMetaCommand ".frobnicate"), Parser.Command.new) :=
  ⟨(c2_meta_exact { buffer := some ".help", buffer_length := 5 } Parser.Command.new
      ".help" rfl (by decide)).2.2.1 rfl,
   (c2_meta_exact { buffer := some ".frobnicate", buffer_length := 11 } Parser.Command.new
      ".frobnicate" rfl (by decide)).2.2.2 (by decide) (by decide)⟩

/-- C3: a non-dot line is classified Select when it starts with the
lowercase keyword select and Insert when it starts with insert, whatever
follows the keyword; no argument parsing happens. -/
theorem c3_query_keywords (ib : Tokenizer.InputBuffer) (cmd : Parser.Command) (s : String)
    (hs : ib.buffer = some s) (hdot : rustStartsWithChar s '.' = false) :
    (rustStartsWith s "select" = true →
      Parser.parse_command ib cmd = (.ok (), { cmd with variant := some (.Query .Select) })) ∧
    (rustStartsWith s "insert" = true →
      Parser.parse_command ib cmd = (.ok (), { cmd with variant := some (.Query .Insert) })) := by
  constructor
  · intro h
    rw [parse_command_nodot ib cmd s hs (data_ne_nil_of_select s h) hdot, if_pos h]
  · intro h
    rw [parse_command_nodot ib cmd s hs (data_ne_nil_of_insert s h) hdot,
      if_neg (by rw [insert_not_select s h]; exact Bool.false_ne_true), if_pos h]

/-- C3 witness: lines with trailing content after the keyword. -/
theorem c3_query_keywords_witness :
    Parser.parse_command { buffer := some "select * from t", buffer_length := 15 }
        Parser.Command.new = (.ok (), { variant := some (.Query .Select) }) ∧
    Parser.parse_command { buffer := some "insert into t values 1", buffer_length := 22 }
        Parser.Command.new = (.ok (), { variant := some (.Query .Insert) }) :=
  ⟨(c3_query_keywords { buffer := some "select * from t", buffer_length := 15 }
      Parser.Command.new "select * from t" rfl (by decide)).1 (by decide),
   (c3_query_keywords { buffer := some "insert into t values 1", buffer_length := 22 }
      Parser.Command.new "insert into t values 1" rfl (by decide)).2 (by decide)⟩

/-- C4 counterexample: at end of stream (a successful read of zero bytes)
the tokenizer read_input used by the run loop returns Ok with the buffer
set to Some of the empty string, the loop classifies that empty input as
InvalidBuffer and continues — the process does not terminate with status 1
and end of stream is surfaced to the classifier. -/
theorem c4_eof_counterexample :
    runLoop Parser.Command.new Tokenizer.InputBuffer.new [Except.ok ""] =
      .blocked [.prompt, .err "Invalid input buffer."] ∧
    Tokenizer.InputBuffer.new.read_input (.ok "") =
      .ok { buffer := some "", buffer_length := 0 } :=
  ⟨by decide, rfl⟩

/-- C4 amended: the input.rs read_input terminates the process with status
1 and a stderr diagnostic on an I/O failure or a zero-byte read; the
tokenizer.rs read_input, the one composed with the classifier in the run
loop, propagates an I/O failure as a fatal Err but at end of stream
returns Ok with the buffer Some of the empty string, so end of stream
reaches the classifier as empty input instead of terminating the
process. -/
theorem c4_fatal_read_amended (selfI : Input.InputBuffer) (selfT : Tokenizer.InputBuffer)
    (e : IOErr) (line : String) (h : line.utf8ByteSize = 0) :
    Input.InputBuffer.read_input selfI (.error e) =
      .exit 1 ("Error reading input: " ++ e.msg) ∧
    Input.InputBuffer.read_input selfI (.ok line) = .exit 1 "Error reading input" ∧
    Tokenizer.InputBuffer.read_input selfT (.error e) = .error e ∧
    Tokenizer.InputBuffer.read_input selfT (.ok "") =
      .ok { selfT with buffer := some "", buffer_length := 0 } := by
  refine ⟨rfl, ?_, rfl, rfl⟩
  simp [Input.InputBuffer.read_input, h]

/-- C4 witness: the amended statement at a concrete failing read and a
concrete zero-byte read. -/
theorem c4_fatal_read_witness :
    Input.InputBuffer.read_input Input.InputBuffer.new (.error ⟨"broken pipe"⟩) =
      .exit 1 ("Error reading input: " ++ "broken pipe") ∧
    Input.InputBuffer.read_input Input.InputBuffer.new (.ok "") =
      .exit 1 "Error reading input" ∧
    Tokenizer.InputBuffer.read_input Tokenizer.InputBuffer.new (.error ⟨"broken pipe"⟩) =
      .error ⟨"broken pipe"⟩ ∧
    Tokenizer.InputBuffer.read_input Tokenizer.InputBuffer.new (.ok "") =
      .ok { Tokenizer.InputBuffer.new with buffer := some "", buffer_length := 0 } :=
  c4_fatal_read_amended Input.InputBuffer.new Tokenizer.InputBuffer.new ⟨"broken pipe"⟩ "" rfl

/-- C5 counterexample: the tokenizer read_input trims leading whitespace
too.  Reading the line of a space, the letter x and a newline stores the
single letter x, not the space and the letter, so more than the one
trailing line terminator is removed. -/
theorem c5_trim_counterexample :
    Tokenizer.InputBuffer.new.read_input (.ok " x\n") =
      .ok { buffer := some "x", buffer_length := 1 } ∧
    ("x" : String) ≠ " x" :=
  ⟨rfl, by decide⟩

/-- C5 amended: the input.rs read_input stores the line with exactly one
trailing newline removed and every other character preserved; the
tokenizer.rs read_input instead stores the line with all leading and
trailing whitespace trimmed. -/
theorem c5_strip_newline_amended (self : Input.InputBuffer) (t : String) :
    ∃ n, Input.InputBuffer.read_input self (.ok (t ++ "\n")) =
      .ok { self with input_lenght := n, buffer := some t } := by
  refine ⟨(t ++ "\n").utf8ByteSize - 1, ?_⟩
  have hne : (t ++ "\n").data ≠ [] := by
    rw [String.data_append]
    simp
  have hpos := utf8ByteSize_pos _ hne
  have hdrop : (t ++ "\n").data.dropLast = t.data := by
    rw [String.data_append]
    exact List.dropLast_concat
  simp only [Input.InputBuffer.read_input, if_neg (by omega : ¬(t ++ "\n").utf8ByteSize = 0)]
  rw [hdrop]

/-- C5 witness: the amended statement at a concrete line. -/
theorem c5_strip_newline_witness :
    ∃ n, Input.InputBuffer.read_input Input.InputBuffer.new (.ok ("  hi " ++ "\n")) =
      .ok { Input.InputBuffer.new with input_lenght := n, buffer := some "  hi " } :=
  c5_strip_newline_amended Input.InputBuffer.new "  hi "

/-- C6: when classification fails, run_command prints exactly one stderr
diagnostic chosen by the error variant — for an unrecognized meta-command
line the text Unrecognized command: quoted line — executes nothing, and
returns the command slot exactly as it was before the call. -/
theorem c6_failure_diagnostics (ib : Tokenizer.InputBuffer) (cmd : Parser.Command)
    (e : Parser.CommandError) (h : (Parser.parse_command ib cmd).1 = .error e) :
    Parser.run_command ib cmd = (cmd, [.err (Parser.classificationDiag e)], none) ∧
    (∀ l, Parser.classificationDiag (.UnrecognizedMetaCommand l) =
      "Unrecognized command: \x27" ++ l ++ "\x27.") := by
  have hfull := parse_command_error_full ib cmd e h
  constructor
  · unfold Parser.run_command
    rw [hfull]
  · intro l
    rfl

/-- C6 witness: the unrecognized meta-command .frobnicate leaves the slot
untouched and prints exactly the specified diagnostic. -/
theorem c6_failure_diagnostics_witness :
    Parser.run_command { buffer := some ".frobnicate", buffer_length := 11 }
        Parser.Command.new =
      (Parser.Command.new,
       [.err (Parser.classificationDiag (.UnrecognizedMetaCommand ".frobnicate"))], none) ∧
    Parser.classificationDiag (.UnrecognizedMetaCommand ".frobnicate") =
      "Unrecognized command: \x27.frobnicate\x27." :=
  ⟨(c6_failure_diagnostics { buffer := some ".frobnicate", buffer_length := 11 }
      Parser.Command.new (.UnrecognizedMetaCommand ".frobnicate") rfl).1,
   (c6_failure_diagnostics { buffer := some ".frobnicate", buffer_length := 11 }
      Parser.Command.new (.UnrecognizedMetaCommand ".frobnicate") rfl).2 ".frobnicate"⟩

/-- C7: reading the line .exit makes the run loop break at once — the
process finishes with status 0 and prints no prompt beyond the one of that
iteration — and dispatching MetaCommand Exit is process::exit(0), which
never returns to the caller. -/
theorem c7_exit_terminates :
    (∀ cmd : Parser.Command, cmd.variant = some (.MetaCommand .Exit) →
      Parser.execute_command cmd = ([], .exited 0)) ∧
    (∀ (cmd : Parser.Command) (ib : Tokenizer.InputBuffer)
        (rest : List (Except IOErr String)) (line : String),
      rustTrim line = ".exit" →
      runLoop cmd ib (.ok line :: rest) = .finished 0 [.prompt]) := by
  constructor
  · intro cmd h
    simp [Parser.execute_command, h]
  · intro cmd ib rest line h
    simp [runLoop, Tokenizer.InputBuffer.read_input, h]

/-- C7 witness: the Exit slot and a concrete .exit line. -/
theorem c7_exit_terminates_witness :
    Parser.execute_command { variant := some (.MetaCommand .Exit) } = ([], .exited 0) ∧
    runLoop Parser.Command.new Tokenizer.InputBuffer.new [Except.ok ".exit\n"] =
      .finished 0 [.prompt] :=
  ⟨c7_exit_terminates.1 { variant := some (.MetaCommand .Exit) } rfl,
   c7_exit_terminates.2 Parser.Command.new Tokenizer.InputBuffer.new [] ".exit\n" (by decide)⟩

/-- C8: execute_command on Help prints its static usage line to standard
output and returns Ok; on Insert and on Select it prints the placeholder
acknowledgment naming the operation and returns Ok, touching no storage;
on a None slot it returns the generic unrecognized-command error instead
of panicking. -/
theorem c8_dispatch_behaviour :
    Parser.execute_command { variant := some (.MetaCommand .Help) } =
      ([.out ".help command executed."], .ret (.ok ())) ∧
    Parser.execute_command { variant := some (.Query .Insert) } =
      ([.out "This is where we would do an insert."], .ret (.ok ())) ∧
    Parser.execute_command { variant := some (.Query .Select) } =
      ([.out "This is where we would do a select."], .ret (.ok ())) ∧
    Parser.execute_command { variant := none } =
      ([], .ret (.error (.UnrecognizedQuery "Unrecognized command"))) :=
  ⟨rfl, rfl, rfl, rfl⟩

/-- C9: whenever parse_command returns Ok the command slot holds Some
variant, so after a successful classification the None branch of
execute_command cannot produce its error. -/
theorem c9_ok_implies_some (ib : Tokenizer.InputBuffer) (cmd : Parser.Command)
    (u : Unit) (cmd1 : Parser.Command)
    (h : Parser.parse_command ib cmd = (.ok u, cmd1)) :
    cmd1.variant.isSome = true ∧
    ∀ e, (Parser.execute_command cmd1).2 ≠ .ret (.error e) := by
  obtain ⟨v, hv⟩ := parse_command_ok_variant ib cmd cmd1 (by cases u; exact h)
  constructor
  · rw [hv]
    rfl
  · intro e
    rcases v with m | q
    · cases m <;> simp [Parser.execute_command, hv]
    · cases q <;> simp [Parser.execute_command, hv]

/-- C9 witness: a successful classification of .help gives a Some slot on
which dispatch does not report the unrecognized-command error. -/
theorem c9_ok_implies_some_witness :
    (Parser.Command.mk (some (.MetaCommand .Help))).variant.isSome = true ∧
    (Parser.execute_command { variant := some (.MetaCommand .Help) }).2 ≠
      .ret (.error .EmptyBuffer) :=
  ⟨(c9_ok_implies_some { buffer := some ".help", buffer_length := 5 } Parser.Command.new
      () { variant := some (.MetaCommand .Help) } rfl).1,
   (c9_ok_implies_some { buffer := some ".help", buffer_length := 5 } Parser.Command.new
      () { variant := some (.MetaCommand .Help) } rfl).2 .EmptyBuffer⟩

/-- C10: every Ok return of the tokenizer read_input leaves the buffer
Some — at end of stream Some of the empty string — a parse_command result
of EmptyBuffer forces a None buffer, and inside the run loop the
EmptyBuffer diagnostic is never emitted, because every classification
there happens after a read. -/
theorem c10_buffer_some_invariant :
    (∀ (self : Tokenizer.InputBuffer) (r : Except IOErr String) (ib1 : Tokenizer.InputBuffer),
      Tokenizer.InputBuffer.read_input self r = .ok ib1 → ib1.buffer.isSome = true) ∧
    (∀ self : Tokenizer.InputBuffer,
      Tokenizer.InputBuffer.read_input self (.ok "") =
        .ok { self with buffer := some "", buffer_length := 0 }) ∧
    (∀ (ib : Tokenizer.InputBuffer) (cmd : Parser.Command),
      (Parser.parse_command ib cmd).1 = .error .EmptyBuffer → ib.buffer = none) ∧
    (∀ (inputs : List (Except IOErr String)) (cmd : Parser.Command)
        (ib : Tokenizer.InputBuffer),
      Parser.Effect.err "Input buffer is empty." ∉ (runLoop cmd ib inputs).effects) := by
  refine ⟨?_, ?_, ?_, ?_⟩
  · intro self r ib1 h
    cases r with
    | error e => exact absurd h (by simp [Tokenizer.InputBuffer.read_input])
    | ok line =>
        simp only [Tokenizer.InputBuffer.read_input, Except.ok.injEq] at h
        rw [← h]
        rfl
  · intro self
    rfl
  · intro ib cmd h
    exact (parse_command_empty_iff ib cmd).mp h
  · intro inputs cmd ib
    exact runLoop_no_empty_diag inputs cmd ib

/-- C10 witness: a concrete successful read and a concrete EmptyBuffer
classification. -/
theorem c10_buffer_some_witness :
    ({ buffer := some "hi", buffer_length := 2 } : Tokenizer.InputBuffer).buffer.isSome = true ∧
    ({ buffer := none, buffer_length := 0 } : Tokenizer.InputBuffer).buffer = none :=
  ⟨c10_buffer_some_invariant.1 Tokenizer.InputBuffer.new (.ok "hi\n")
      { buffer := some "hi", buffer_length := 2 } rfl,
   c10_buffer_some_invariant.2.2.1 { buffer := none, buffer_length := 0 }
      Parser.Command.new rfl⟩

end Sqldb
